import Mathlib

/-!
Verification development for the collector-agent metrics pipeline.

The Python sources under `src/collector/` are shallowly embedded below:
pure functions become Lean functions over `List Char` strings and exact
rationals (`ℚ` stands in for finite IEEE doubles; where non-finite floats
matter, the inductive `PyFloat` carries `inf`, `-inf` and `nan`); stateful
methods become explicit state-passing functions; fallible operations return
`Option` / dedicated result inductives.
-/

set_option maxRecDepth 4000

/-- Strings are modelled as lists of characters. -/
abbrev Str := List Char

/-- ASCII whitespace, as stripped by Python `str.strip()` and matched by the
regex class `\s` (the model covers the ASCII range; the sources only meet
ASCII text). -/
def isSpaceChar (c : Char) : Bool :=
  c = ' ' || c = '\t' || c = '\n' || c = '\r' || c = '\x0b' || c = '\x0c'

/-- Assoc-list lookup (Python `dict.get`, returning the value stored for a
key; keys are unique by construction via `dset`). -/
def dlookup {α : Type} : List (Str × α) → Str → Option α
  | [], _ => none
  | kv :: rest, k => if kv.1 = k then some kv.2 else dlookup rest k

/-- Assoc-list store (Python `d[k] = v`): update in place or append,
preserving insertion order and key uniqueness. -/
def dset {α : Type} : List (Str × α) → Str → α → List (Str × α)
  | [], k, v => [(k, v)]
  | kv :: rest, k, v => if kv.1 = k then (k, v) :: rest else kv :: dset rest k v

/-- A parsed sample as consumed by the node exporter. -/
structure MetricQ where
  name : Str
  labels : List (Str × Str)
  value : ℚ
deriving DecidableEq

/-- `ParsedMetrics.get_all_values`: all `(labels, value)` pairs for a name,
in parse order. -/
def getAllValues (n : Str) (parsed : List MetricQ) : List (List (Str × Str) × ℚ) :=
  parsed.filterMap (fun m => if m.name = n then some (m.labels, m.value) else none)

/-- Cross-sample state of the CPU rate engine
(`NodeExporter._prev_cpu_total` / `_prev_cpu_idle`). -/
structure CpuState where
  prevTotal : Option (List (Str × ℚ))
  prevIdle : Option (List (Str × ℚ))
deriving DecidableEq

/-- `dict.get` with a rational default of `0`. -/
def dgetQ (d : List (Str × ℚ)) (k : Str) : ℚ := (dlookup d k).getD 0

/-- The per-CPU summation loop of `_calculate_cpu_usage`: build the
`total_by_cpu` and `idle_by_cpu` dicts (label `cpu` defaults to `"0"`,
label `mode` to `""`; the idle dict always shares the total dict's keys,
so the `idle_by_cpu[cpu]` read never fails and is modelled with a
default). -/
def buildCpuSums (samples : List (List (Str × Str) × ℚ)) :
    List (Str × ℚ) × List (Str × ℚ) :=
  samples.foldl
    (fun acc s =>
      let cpu := (dlookup s.1 ['c', 'p', 'u']).getD ['0']
      let mode := (dlookup s.1 ['m', 'o', 'd', 'e']).getD []
      let tot0 := acc.1
      let idl0 := acc.2
      let tot1 := if (dlookup tot0 cpu).isSome then tot0 else dset tot0 cpu 0
      let idl1 := if (dlookup tot0 cpu).isSome then idl0 else dset idl0 cpu 0
      let tot2 := dset tot1 cpu (dgetQ tot1 cpu + s.2)
      let idl2 := if mode = ['i', 'd', 'l', 'e'] then dset idl1 cpu (dgetQ idl1 cpu + s.2) else idl1
      (tot2, idl2))
    ([], [])

/-- The metric name `node_cpu_seconds_total`. -/
def cpuSecondsName : Str := "node_cpu_seconds_total".data

/-- The delta loop of `_calculate_cpu_usage`: accumulate `total_delta` and
`idle_delta` over the current totals, counting only CPUs present in the
previous state. -/
def deltaFold (pt pi tot idl : List (Str × ℚ)) : ℚ × ℚ :=
  tot.foldl
    (fun (acc : ℚ × ℚ) kv =>
      if (dlookup pt kv.1).isSome then
        (acc.1 + (kv.2 - dgetQ pt kv.1), acc.2 + (dgetQ idl kv.1 - dgetQ pi kv.1))
      else acc)
    (0, 0)

/-- `NodeExporter._calculate_cpu_usage`: seed-and-return-zero on the first
measurement, otherwise sum per-CPU deltas over the CPUs present in the
previous state, replace the state, and clamp the usage to `[0, 100]`
(zero when the total delta is not positive). -/
def calcCpuUsage (st : CpuState) (parsed : List MetricQ) : ℚ × CpuState :=
  let cpuSeconds := getAllValues cpuSecondsName parsed
  if cpuSeconds = [] then (0, st)
  else
    let sums := buildCpuSums cpuSeconds
    match st.prevTotal, st.prevIdle with
    | some pt, some pi =>
      let d := deltaFold pt pi sums.1 sums.2
      let st2 : CpuState := ⟨some sums.1, some sums.2⟩
      if d.1 ≤ 0 then (0, st2)
      else (max 0 (min 100 ((d.1 - d.2) / d.1 * 100)), st2)
    | _, _ => (0, ⟨some sums.1, some sums.2⟩)

/-- Spec-side formula: `Δtotal`, the summed per-CPU difference of current
total against previous total, over the CPUs known to the previous poll. -/
def specDeltaTotal (tot pt : List (Str × ℚ)) : ℚ :=
  ((tot.filter (fun kv => (dlookup pt kv.1).isSome)).map
    (fun kv => kv.2 - dgetQ pt kv.1)).sum

/-- Spec-side formula: `Δidle` over the same CPUs as `specDeltaTotal`. -/
def specDeltaIdle (tot pt idl pi : List (Str × ℚ)) : ℚ :=
  ((tot.filter (fun kv => (dlookup pt kv.1).isSome)).map
    (fun kv => dgetQ idl kv.1 - dgetQ pi kv.1)).sum

/-- Python `int(x)` on a rational: truncation toward zero. -/
def pyTrunc (q : ℚ) : ℤ := if 0 ≤ q then ⌊q⌋ else -⌊-q⌋

/-- Python banker's rounding of a rational to an integer
(`round(x)`: nearest, ties to even). -/
def pyRoundInt (x : ℚ) : ℤ :=
  if x - ⌊x⌋ = 1 / 2 then
    (if ⌊x⌋ % 2 = 0 then ⌊x⌋ else ⌊x⌋ + 1)
  else ⌊x + 1 / 2⌋

/-- Python `round(x, n)` on a (finite) float, modelled exactly on ℚ. -/
def pyRoundQ (x : ℚ) (n : ℕ) : ℚ := (pyRoundInt (x * 10 ^ n) : ℚ) / 10 ^ n

/-- One per-mount record of `_get_disk_metrics` before the usage pass
(`available_bytes` is set only by the join against available samples). -/
structure MpEntry where
  mountpoint : Str
  device : Str
  total : ℤ
  avail : Option ℤ
deriving DecidableEq

/-- One entry of the disk list returned by `_get_disk_metrics`. -/
structure DiskOut where
  mountpoint : Str
  device : Str
  total_bytes : ℤ
  available_bytes : ℤ
  usage_percent : ℚ
deriving DecidableEq

/-- Pseudo filesystem types skipped by `_get_disk_metrics`. -/
def pseudoFsTypes : List Str :=
  ["tmpfs".data, "devtmpfs".data, "squashfs".data, "overlay".data,
   "devfs".data, "nullfs".data]

/-- OS-reserved mountpoint roots skipped by `_get_disk_metrics`. -/
def reservedMp (mp : Str) : Bool :=
  ["/sys".data, "/proc".data, "/dev".data, "/run".data, "/snap".data].any
    (fun p => p.isPrefixOf mp)

def mountpointKey : Str := "mountpoint".data
def deviceKey : Str := "device".data
def fstypeKey : Str := "fstype".data

/-- Decision to skip a size sample (pseudo filesystem or reserved
mountpoint root). -/
def skipSizeSample (labels : List (Str × Str)) : Bool :=
  ((dlookup labels fstypeKey).getD []) ∈ pseudoFsTypes ||
    reservedMp ((dlookup labels mountpointKey).getD [])

/-- Body of the first loop of `_get_disk_metrics`: skip pseudo
filesystems, reserved roots, empty mountpoints and non-positive sizes;
otherwise store the mountpoint record. -/
def sizeStep (mps : List (Str × MpEntry)) (s : List (Str × Str) × ℚ) :
    List (Str × MpEntry) :=
  let mp := (dlookup s.1 mountpointKey).getD []
  let dev := (dlookup s.1 deviceKey).getD []
  if skipSizeSample s.1 then mps
  else if mp ≠ [] ∧ 0 < s.2 then dset mps mp ⟨mp, dev, pyTrunc s.2, none⟩
  else mps

/-- First loop of `_get_disk_metrics`: build the mountpoint dict from the
`node_filesystem_size_bytes` samples. -/
def buildMps (sizeSamples : List (List (Str × Str) × ℚ)) : List (Str × MpEntry) :=
  sizeSamples.foldl sizeStep []

/-- Body of the second loop of `_get_disk_metrics`: join one
`node_filesystem_avail_bytes` sample against an existing mountpoint. -/
def availStep (mps : List (Str × MpEntry)) (s : List (Str × Str) × ℚ) :
    List (Str × MpEntry) :=
  let mp := (dlookup s.1 mountpointKey).getD []
  match dlookup mps mp with
  | some e => dset mps mp { e with avail := some (pyTrunc s.2) }
  | none => mps

/-- Second loop of `_get_disk_metrics`. -/
def applyAvail (mps : List (Str × MpEntry))
    (availSamples : List (List (Str × Str) × ℚ)) : List (Str × MpEntry) :=
  availSamples.foldl availStep mps

/-- Third loop of `_get_disk_metrics`: usage percentage per mount
(`available` defaults to 0 when no available sample matched). -/
def mkDisk (e : MpEntry) : DiskOut :=
  let total := e.total
  let available := e.avail.getD 0
  let usage : ℚ := if 0 < total then ((total : ℚ) - (available : ℚ)) / (total : ℚ) * 100 else 0
  ⟨e.mountpoint, e.device, total, available, pyRoundQ usage 2⟩

/-- Lexicographic comparison of strings by code point (Python `str` `<=`). -/
def leStr : Str → Str → Bool
  | [], _ => true
  | _ :: _, [] => false
  | a :: as, b :: bs => if a < b then true else if a = b then leStr as bs else false

def diskLe (a b : DiskOut) : Bool := leStr a.mountpoint b.mountpoint

/-- Insert into a list sorted by mountpoint. -/
def insertDisk (x : DiskOut) : List DiskOut → List DiskOut
  | [] => [x]
  | y :: rest => if diskLe x y then x :: y :: rest else y :: insertDisk x rest

/-- `disks.sort(key=lambda x: x["mountpoint"])`: mountpoints are dict keys
and hence pairwise distinct, so any sort by mountpoint produces the same
list; insertion sort is used here. -/
def sortDisks (l : List DiskOut) : List DiskOut := l.foldr insertDisk []

def fsSizeName : Str := "node_filesystem_size_bytes".data
def fsAvailName : Str := "node_filesystem_avail_bytes".data

/-- `NodeExporter._get_disk_metrics`. -/
def getDiskMetrics (parsed : List MetricQ) : List DiskOut :=
  let mps := applyAvail (buildMps (getAllValues fsSizeName parsed))
    (getAllValues fsAvailName parsed)
  sortDisks (mps.map (fun kv => mkDisk kv.2))

/-! ## Delivery client (`src/collector/sender.py`)

The environment is modelled as a function from the attempt index to that
attempt's outcome; `httpx` success is a 2xx status, every raised error
(status error, transport error, anything else) continues the retry loop. -/

/-- Outcome of one POST attempt. -/
inductive AttemptOut where
  | status (code : ℕ)
  | transportErr
  | otherErr
deriving DecidableEq

/-- `response.raise_for_status()` does not raise exactly on 2xx codes. -/
def is2xx : AttemptOut → Bool
  | .status c => 200 ≤ c && c < 300
  | _ => false

/-- Observable trace of `MetricsSender.send`: the returned boolean, the
number of POST attempts issued, and the sleeps performed in order. -/
structure SendTrace where
  result : Bool
  attempts : ℕ
  delays : List ℚ
deriving DecidableEq

/-- The retry loop of `MetricsSender.send` from a given attempt index:
`for attempt in range(max_retries)`, return `True` on a 2xx response,
sleep `retry_delay` after every failed attempt except the last. -/
def sendFrom (outcome : ℕ → AttemptOut) (maxRetries : ℕ) (delay : ℚ) (attempt : ℕ) :
    SendTrace :=
  if attempt < maxRetries then
    if is2xx (outcome attempt) then ⟨true, 1, []⟩
    else
      let rest := sendFrom outcome maxRetries delay (attempt + 1)
      ⟨rest.result, rest.attempts + 1,
        if attempt < maxRetries - 1 then delay :: rest.delays else rest.delays⟩
  else ⟨false, 0, []⟩
termination_by maxRetries - attempt

/-- `MetricsSender.send` (attempt counter starts at 0). -/
def sendModel (outcome : ℕ → AttemptOut) (maxRetries : ℕ) (delay : ℚ) : SendTrace :=
  sendFrom outcome maxRetries delay 0

/-! ## Transformer (`src/collector/transformer.py`)

The raw exporter dicts are embedded as records of optional fields
(`dict.get(key, default)` becomes `Option.getD`); a `None` input group is
`none`.  Timestamp and hostname are captured by the caller and passed in. -/

structure CpuIn where
  usage_percent : Option ℚ
  load_1m : Option ℚ
  load_5m : Option ℚ
  load_15m : Option ℚ
  cores : Option ℤ
  temperature_celsius : Option ℚ
deriving DecidableEq

structure MemIn where
  total_bytes : Option ℤ
  available_bytes : Option ℤ
  usage_percent : Option ℚ
deriving DecidableEq

structure DiskIn where
  mountpoint : Option Str
  device : Option Str
  total_bytes : Option ℤ
  available_bytes : Option ℤ
  usage_percent : Option ℚ
deriving DecidableEq

structure NodeIn where
  cpu : Option CpuIn
  memory : Option MemIn
  disks : Option (List DiskIn)
deriving DecidableEq

structure GpuIn where
  utilization_percent : Option ℚ
  memory_used_bytes : Option ℤ
  memory_total_bytes : Option ℤ
  memory_usage_percent : Option ℚ
  temperature_celsius : Option ℚ
  power_watts : Option ℚ
deriving DecidableEq

/-- `transformer.CpuMetrics` with its pydantic defaults. -/
structure CpuMetrics where
  usage_percent : ℚ := 0
  load_1m : ℚ := 0
  load_5m : ℚ := 0
  load_15m : ℚ := 0
  cores : ℤ := 1
  temperature_celsius : Option ℚ := none
deriving DecidableEq

structure MemoryMetrics where
  total_bytes : ℤ := 0
  available_bytes : ℤ := 0
  usage_percent : ℚ := 0
deriving DecidableEq

structure DiskMetricsT where
  mountpoint : Str
  device : Str := []
  total_bytes : ℤ := 0
  available_bytes : ℤ := 0
  usage_percent : ℚ := 0
deriving DecidableEq

structure GpuMetrics where
  utilization_percent : ℚ := 0
  memory_used_bytes : ℤ := 0
  memory_total_bytes : ℤ := 0
  memory_usage_percent : ℚ := 0
  temperature_celsius : ℚ := 0
  power_watts : ℚ := 0
deriving DecidableEq

structure SystemMetrics where
  timestamp : Str
  hostname : Str
  cpu : CpuMetrics
  memory : MemoryMetrics
  disks : List DiskMetricsT
  gpu : Option GpuMetrics
deriving DecidableEq

/-- `transformer.transform_metrics`.  (A Python `{}` input is falsy and
skipped like `None`; it corresponds to a record of all-`none` fields,
which produces the same defaults, so `Option` faithfully covers it.) -/
def transformMetrics (ts host : Str) (node : Option NodeIn) (gpu : Option GpuIn) :
    SystemMetrics :=
  let cpu : CpuMetrics := match node with
    | some nm =>
      match nm.cpu with
      | some c =>
        { usage_percent := c.usage_percent.getD 0
          load_1m := c.load_1m.getD 0
          load_5m := c.load_5m.getD 0
          load_15m := c.load_15m.getD 0
          cores := c.cores.getD 1
          temperature_celsius := c.temperature_celsius }
      | none => {}
    | none => {}
  let memory : MemoryMetrics := match node with
    | some nm =>
      match nm.memory with
      | some m =>
        { total_bytes := m.total_bytes.getD 0
          available_bytes := m.available_bytes.getD 0
          usage_percent := m.usage_percent.getD 0 }
      | none => {}
    | none => {}
  let disks : List DiskMetricsT := match node with
    | some nm =>
      match nm.disks with
      | some ds =>
        ds.map (fun d =>
          { mountpoint := d.mountpoint.getD []
            device := d.device.getD []
            total_bytes := d.total_bytes.getD 0
            available_bytes := d.available_bytes.getD 0
            usage_percent := d.usage_percent.getD 0 })
      | none => []
    | none => []
  let gpuOut : Option GpuMetrics := match gpu with
    | some g =>
      some
        { utilization_percent := g.utilization_percent.getD 0
          memory_used_bytes := g.memory_used_bytes.getD 0
          memory_total_bytes := g.memory_total_bytes.getD 0
          memory_usage_percent := g.memory_usage_percent.getD 0
          temperature_celsius := g.temperature_celsius.getD 0
          power_watts := g.power_watts.getD 0 }
    | none => none
  ⟨ts, host, cpu, memory, disks, gpuOut⟩

/-- JSON values (with an explicit `jnull`, so that the absence of emitted
nulls is a provable property of the serializer). -/
inductive Json where
  | jnull
  | jnum (q : ℚ)
  | jint (n : ℤ)
  | jstr (s : Str)
  | jarr (xs : List Json)
  | jobj (fields : List (Str × Json))

/-- Serialized CPU block: pydantic `model_dump(exclude_none=True)` walks
the fields in declaration order and drops `None` values. -/
def dumpCpu (c : CpuMetrics) : List (Str × Json) :=
  [("usage_percent".data, .jnum c.usage_percent),
   ("load_1m".data, .jnum c.load_1m),
   ("load_5m".data, .jnum c.load_5m),
   ("load_15m".data, .jnum c.load_15m),
   ("cores".data, .jint c.cores)] ++
  (match c.temperature_celsius with
   | some q => [("temperature_celsius".data, Json.jnum q)]
   | none => [])

def dumpMemory (m : MemoryMetrics) : List (Str × Json) :=
  [("total_bytes".data, .jint m.total_bytes),
   ("available_bytes".data, .jint m.available_bytes),
   ("usage_percent".data, .jnum m.usage_percent)]

def dumpDisk (d : DiskMetricsT) : List (Str × Json) :=
  [("mountpoint".data, .jstr d.mountpoint),
   ("device".data, .jstr d.device),
   ("total_bytes".data, .jint d.total_bytes),
   ("available_bytes".data, .jint d.available_bytes),
   ("usage_percent".data, .jnum d.usage_percent)]

def dumpGpu (g : GpuMetrics) : List (Str × Json) :=
  [("utilization_percent".data, .jnum g.utilization_percent),
   ("memory_used_bytes".data, .jint g.memory_used_bytes),
   ("memory_total_bytes".data, .jint g.memory_total_bytes),
   ("memory_usage_percent".data, .jnum g.memory_usage_percent),
   ("temperature_celsius".data, .jnum g.temperature_celsius),
   ("power_watts".data, .jnum g.power_watts)]

/-- `transformer.metrics_to_dict`:
`metrics.model_dump(exclude_none=True)` — absent optional fields
(`gpu`, `cpu.temperature_celsius`) are omitted, not emitted as null. -/
def metricsToDict (m : SystemMetrics) : Json :=
  .jobj
    ([("timestamp".data, .jstr m.timestamp),
      ("hostname".data, .jstr m.hostname),
      ("cpu".data, .jobj (dumpCpu m.cpu)),
      ("memory".data, .jobj (dumpMemory m.memory)),
      ("disks".data, .jarr (m.disks.map (fun d => .jobj (dumpDisk d))))] ++
     (match m.gpu with
      | some g => [("gpu".data, Json.jobj (dumpGpu g))]
      | none => []))

def isNullJ : Json → Bool
  | .jnull => true
  | _ => false

/-- No `jnull` occurs in a JSON value down to the given nesting depth
(the serializer's output nests at most three levels, so depth 4 checks it
completely). -/
def nullFreeF : ℕ → Json → Bool
  | 0, j => !isNullJ j
  | fuel + 1, .jarr xs => xs.all (nullFreeF fuel)
  | fuel + 1, .jobj fs => fs.all (fun kv => nullFreeF fuel kv.2)
  | _ + 1, j => !isNullJ j

/-- Keys of a JSON object. -/
def jsonKeys : Json → List Str
  | .jobj fs => fs.map (fun kv => kv.1)
  | _ => []

/-! ## NVIDIA exporter (`src/collector/exporters/nvidia.py`)

`_parse_output` works on the raw `nvidia-smi` CSV text.  Python `float()`
parsing is modelled including the `inf`/`infinity`/`nan` words and
underscore-separated digit groups; `int()` applied to a float raises
`ValueError` on NaN (caught by `_parse_output`, yielding no result) and
`OverflowError` on infinities (not caught there). -/

/-- A `node_cpu_seconds_total` sample (concrete witness data). -/
def mkCpuSample (cpu mode : String) (v : ℚ) : MetricQ :=
  ⟨cpuSecondsName, [("cpu".data, cpu.data), ("mode".data, mode.data)], v⟩

def exPollA : List MetricQ :=
  [mkCpuSample "0" "idle" 100, mkCpuSample "0" "user" 100,
   mkCpuSample "1" "idle" 100, mkCpuSample "1" "user" 100]

def exPollB : List MetricQ :=
  [mkCpuSample "0" "idle" 150, mkCpuSample "0" "user" 250,
   mkCpuSample "1" "idle" 100, mkCpuSample "1" "user" 200]

/-- A filesystem sample (concrete witness data). -/
def mkFsSample (name mp dev fs : String) (v : ℚ) : MetricQ :=
  ⟨name.data, [("mountpoint".data, mp.data), ("device".data, dev.data),
    ("fstype".data, fs.data)], v⟩

def exDiskParsed : List MetricQ :=
  [mkFsSample "node_filesystem_size_bytes" "/" "/dev/sda1" "ext4" 1000,
   mkFsSample "node_filesystem_size_bytes" "/tmp" "tmpfs" "tmpfs" 500,
   mkFsSample "node_filesystem_size_bytes" "/b" "d2" "ext4" 800,
   mkFsSample "node_filesystem_avail_bytes" "/" "/dev/sda1" "ext4" 250]

/-- A snapshot with both optional fields absent (concrete witness data). -/
def exSnap : SystemMetrics :=
  ⟨"t0".data, "h0".data, {}, {}, [⟨"/".data, "sda".data, 10, 5, 50⟩], none⟩


/-! ## Generic list and string lemmas -/

theorem isSpaceChar_iff (c : Char) :
    isSpaceChar c = true ↔
      c = ' ' ∨ c = '\t' ∨ c = '\n' ∨ c = '\r' ∨ c = '\x0b' ∨ c = '\x0c' := by
  simp [isSpaceChar]
  tauto

theorem not_space_of_digit (c : Char) (h : c.isDigit = true) : isSpaceChar c = false := by
  rcases hc : isSpaceChar c with _ | _
  · rfl
  · exfalso
    rcases (isSpaceChar_iff c).mp hc with rfl | rfl | rfl | rfl | rfl | rfl <;> simp at h

theorem deltaFold_eq (pt pi idl : List (Str × ℚ)) (tot : List (Str × ℚ)) :
    deltaFold pt pi tot idl =
      (specDeltaTotal tot pt, specDeltaIdle tot pt idl pi) := by
  have key : ∀ (l : List (Str × ℚ)) (a b : ℚ),
      l.foldl
        (fun (acc : ℚ × ℚ) kv =>
          if (dlookup pt kv.1).isSome then
            (acc.1 + (kv.2 - dgetQ pt kv.1), acc.2 + (dgetQ idl kv.1 - dgetQ pi kv.1))
          else acc)
        (a, b)
      = (a + specDeltaTotal l pt, b + specDeltaIdle l pt idl pi) := by
    intro l
    induction l with
    | nil => intro a b; simp [specDeltaTotal, specDeltaIdle]
    | cons kv rest ih =>
      intro a b
      rw [List.foldl_cons]
      rcases h : (dlookup pt kv.1).isSome with _ | _
      · rw [if_neg (by simp [h]), ih]
        simp only [specDeltaTotal, specDeltaIdle, List.filter_cons, h]
        simp
      · rw [if_pos (by simp [h]), ih]
        have hfil : (kv :: rest).filter (fun kv => (dlookup pt kv.1).isSome) =
            kv :: rest.filter (fun kv => (dlookup pt kv.1).isSome) := by
          simp [List.filter_cons, h]
        simp only [specDeltaTotal, specDeltaIdle, hfil, List.map_cons, List.sum_cons,
          Prod.mk.injEq]
        constructor <;> ring
  rw [deltaFold, key]
  simp

/-- Claim C1: on the very first poll with non-empty per-core counter
samples, `_calculate_cpu_usage` returns 0 and seeds the state; on every
subsequent poll it returns `clamp(((Δtotal − Δidle) / Δtotal) × 100, 0,
100)` over the per-CPU sums of the current and previous polls, and 0
whenever `Δtotal ≤ 0`. -/
theorem c1_cpu_usage_rate_engine :
    ∀ parsed : List MetricQ,
      getAllValues cpuSecondsName parsed ≠ [] →
      (calcCpuUsage ⟨none, none⟩ parsed =
        (0, ⟨some (buildCpuSums (getAllValues cpuSecondsName parsed)).1,
             some (buildCpuSums (getAllValues cpuSecondsName parsed)).2⟩)) ∧
      (∀ pt pi : List (Str × ℚ),
        calcCpuUsage ⟨some pt, some pi⟩ parsed =
          (let sums := buildCpuSums (getAllValues cpuSecondsName parsed)
           let dt := specDeltaTotal sums.1 pt
           let di := specDeltaIdle sums.1 pt sums.2 pi
           ((if dt ≤ 0 then 0 else max 0 (min 100 ((dt - di) / dt * 100))),
            ⟨some sums.1, some sums.2⟩))) := by
  intro parsed hne
  constructor
  · simp only [calcCpuUsage, if_neg hne]
  · intro pt pi
    simp only [calcCpuUsage, if_neg hne, deltaFold_eq]
    split <;> rfl

/-- Witness for C1: first poll on a two-CPU sample set yields 0 and seeds
the state; the next poll yields the clamped delta formula
(`Δtotal = 300`, `Δidle = 50`, usage `250/3`). -/
theorem c1_cpu_usage_rate_engine_witness :
    calcCpuUsage ⟨none, none⟩ exPollA =
      (0, ⟨some [(['0'], 200), (['1'], 200)], some [(['0'], 100), (['1'], 100)]⟩) ∧
    calcCpuUsage ⟨some [(['0'], 200), (['1'], 200)], some [(['0'], 100), (['1'], 100)]⟩
        exPollB =
      (250 / 3, ⟨some [(['0'], 400), (['1'], 300)], some [(['0'], 150), (['1'], 100)]⟩) := by
  constructor
  · rw [(c1_cpu_usage_rate_engine exPollA (by decide)).1]
    simp +decide only [getAllValues, exPollA, mkCpuSample, buildCpuSums, dset, dlookup,
      dgetQ, cpuSecondsName, List.filterMap, List.foldl, Prod.mk.injEq]
    norm_num
  · rw [(c1_cpu_usage_rate_engine exPollB (by decide)).2
      [(['0'], 200), (['1'], 200)] [(['0'], 100), (['1'], 100)]]
    simp +decide only [getAllValues, exPollB, mkCpuSample, buildCpuSums, dset, dlookup,
      dgetQ, cpuSecondsName, specDeltaTotal, specDeltaIdle, List.filterMap, List.foldl,
      List.filter, List.map, List.sum_cons, List.sum_nil, Prod.mk.injEq]
    norm_num

/-- Counterexample for C8: a successful poll whose sample set has no
per-core counter samples leaves the rate-engine state untouched instead of
replacing it wholesale with the (empty) current per-CPU sums. -/
theorem c8_counterexample :
    (calcCpuUsage ⟨some [(['0'], 5)], some [(['0'], 2)]⟩
        [⟨"node_load1".data, [], 2⟩]).2 = ⟨some [(['0'], 5)], some [(['0'], 2)]⟩ ∧
    (⟨some [(['0'], 5)], some [(['0'], 2)]⟩ : CpuState) ≠
      ⟨some (buildCpuSums (getAllValues cpuSecondsName [⟨"node_load1".data, [], 2⟩])).1,
       some (buildCpuSums (getAllValues cpuSecondsName [⟨"node_load1".data, [], 2⟩])).2⟩ := by
  constructor
  · decide
  · decide

/-- Amended C8: on every poll whose sample set contains at least one
per-core counter sample, the cross-sample state is replaced wholesale with
the current per-CPU sums; a poll with no such samples leaves the state
unchanged. -/
theorem c8_state_replaced_wholesale :
    ∀ (st : CpuState) (parsed : List MetricQ),
      (getAllValues cpuSecondsName parsed ≠ [] →
        (calcCpuUsage st parsed).2 =
          ⟨some (buildCpuSums (getAllValues cpuSecondsName parsed)).1,
           some (buildCpuSums (getAllValues cpuSecondsName parsed)).2⟩) ∧
      (getAllValues cpuSecondsName parsed = [] →
        (calcCpuUsage st parsed).2 = st) := by
  intro st parsed
  constructor
  · intro h
    obtain ⟨pt0, pi0⟩ := st
    simp only [calcCpuUsage, if_neg h]
    cases pt0 <;> cases pi0 <;> simp [apply_ite Prod.snd]
  · intro h
    simp [calcCpuUsage, h]

/-- Witness for the amended C8 at concrete inputs: a poll with per-core
samples replaces the state; a poll without them leaves it unchanged. -/
theorem c8_state_replaced_wholesale_witness :
    (calcCpuUsage ⟨some [(['0'], 5)], some [(['0'], 2)]⟩ exPollA).2 =
      ⟨some [(['0'], 200), (['1'], 200)], some [(['0'], 100), (['1'], 100)]⟩ ∧
    (calcCpuUsage ⟨some [(['0'], 5)], some [(['0'], 2)]⟩
        [⟨"node_load1".data, [], 2⟩]).2 = ⟨some [(['0'], 5)], some [(['0'], 2)]⟩ := by
  constructor
  · rw [(c8_state_replaced_wholesale ⟨some [(['0'], 5)], some [(['0'], 2)]⟩ exPollA).1
      (by decide)]
    simp +decide only [getAllValues, exPollA, mkCpuSample, buildCpuSums, dset, dlookup,
      dgetQ, cpuSecondsName, List.filterMap, List.foldl, CpuState.mk.injEq,
      Option.some.injEq]
    norm_num
  · exact (c8_state_replaced_wholesale _ _).2 (by decide)

/-! ## Claim theorems: delivery client -/

theorem sendFrom_all_fail (outcome : ℕ → AttemptOut) (n : ℕ) (d : ℚ) :
    ∀ (k a : ℕ), n - a = k → (∀ i, a ≤ i → i < n → is2xx (outcome i) = false) →
      sendFrom outcome n d a = ⟨false, n - a, List.replicate (n - 1 - a) d⟩ := by
  intro k
  induction k with
  | zero =>
    intro a hk hfail
    rw [sendFrom, if_neg (by omega)]
    have h1 : n - a = 0 := hk
    have h2 : n - 1 - a = 0 := by omega
    rw [h1, h2]
    rfl
  | succ k ih =>
    intro a hk hfail
    have ha : a < n := by omega
    rw [sendFrom, if_pos ha, if_neg (by simp [hfail a le_rfl ha]),
      ih (a + 1) (by omega) (fun i h1 h2 => hfail i (by omega) h2)]
    dsimp only
    by_cases hlast : a < n - 1
    · rw [if_pos hlast]
      have h3 : n - 1 - a = (n - 1 - (a + 1)) + 1 := by omega
      have h4 : n - (a + 1) + 1 = n - a := by omega
      rw [h3, List.replicate_succ]
      simp [h4]
    · rw [if_neg hlast]
      have h4 : n - 1 - (a + 1) = 0 := by omega
      have h5 : n - 1 - a = 0 := by omega
      have h3 : n - (a + 1) + 1 = n - a := by omega
      simp [h3, h4, h5]

theorem sendFrom_first_success (outcome : ℕ → AttemptOut) (n : ℕ) (d : ℚ) :
    ∀ (j a : ℕ), a + j < n → is2xx (outcome (a + j)) = true →
      (∀ i, a ≤ i → i < a + j → is2xx (outcome i) = false) →
      sendFrom outcome n d a = ⟨true, j + 1, List.replicate j d⟩ := by
  intro j
  induction j with
  | zero =>
    intro a hn hs hfail
    rw [sendFrom, if_pos (by omega), if_pos (by simpa using hs)]
    rfl
  | succ j ih =>
    intro a hn hs hfail
    have ha : a < n := by omega
    have hs2 : is2xx (outcome (a + 1 + j)) = true := by
      have heq : a + 1 + j = a + (j + 1) := by omega
      rw [heq]
      exact hs
    rw [sendFrom, if_pos ha, if_neg (by simp [hfail a le_rfl (by omega)]),
      ih (a + 1) (by omega) hs2 (fun i h1 h2 => hfail i (by omega) (by omega))]
    dsimp only
    rw [if_pos (by omega)]
    simp [List.replicate_succ]

/-- Claim C3: when every attempt fails (non-2xx or transport error),
`send` issues exactly `max_retries` attempts with the configured fixed
delay between consecutive attempts and returns false; when attempt `k` is
the first to succeed with a 2xx response, it returns true immediately
after `k + 1` attempts. -/
theorem c3_send_retries :
    ∀ (outcome : ℕ → AttemptOut) (n : ℕ) (d : ℚ),
      ((∀ i, i < n → is2xx (outcome i) = false) →
        sendModel outcome n d = ⟨false, n, List.replicate (n - 1) d⟩) ∧
      (∀ k, k < n → is2xx (outcome k) = true →
        (∀ i, i < k → is2xx (outcome i) = false) →
        sendModel outcome n d = ⟨true, k + 1, List.replicate k d⟩) := by
  intro outcome n d
  constructor
  · intro hfail
    have h := sendFrom_all_fail outcome n d n 0 (by omega) (fun i _ h2 => hfail i h2)
    simpa [sendModel] using h
  · intro k hk hs hfail
    have h := sendFrom_first_success outcome n d k 0 (by simpa using hk)
      (by simpa using hs) (fun i _ h2 => hfail i (by omega))
    simpa [sendModel] using h

/-- Witness for C3: three always-failing attempts with unit delay, then a
run whose second attempt returns 204. -/
theorem c3_send_retries_witness :
    sendModel (fun _ => .transportErr) 3 1 = ⟨false, 3, [1, 1]⟩ ∧
    sendModel (fun i => if i = 1 then .status 204 else .status 500) 3 1 =
      ⟨true, 2, [1]⟩ := by
  constructor
  · rw [(c3_send_retries (fun _ => .transportErr) 3 1).1 (fun i _ => rfl)]
    rfl
  · rw [(c3_send_retries (fun i => if i = 1 then .status 204 else .status 500) 3 1).2
      1 (by omega) (by rfl) (by
        intro i hi
        have h0 : i = 0 := by omega
        subst h0
        rfl)]
    rfl

/-! ## Claim theorems: transformer and serialization -/

/-- Counterexample for C4: the CPU group produced by
`transform_metrics(None, None)` is not zero-valued — its core count
defaults to 1, not 0 (pydantic default `cores: int = 1`). -/
theorem c4_counterexample :
    (transformMetrics "t".data "h".data none none).cpu.cores = 1 ∧
    (transformMetrics "t".data "h".data none none).cpu.cores ≠ 0 := by
  constructor <;> decide

/-- Amended C4: `transform_metrics(None, None)` yields a snapshot whose
CPU usage, load averages and memory fields are zero, whose core count is
the default 1 with temperature absent, with an empty disk list, and with
the GPU block absent (not zero-valued). -/
theorem c4_transform_none_defaults :
    ∀ ts host : Str,
      transformMetrics ts host none none =
        ⟨ts, host, ⟨0, 0, 0, 0, 1, none⟩, ⟨0, 0, 0⟩, [], none⟩ := by
  intro ts host
  rfl

/-- Claim C5: the serialized snapshot omits keys whose value is absent —
no `"gpu"` key when the GPU block is absent, no `"temperature_celsius"`
key in the CPU block when the temperature is absent — and no null is ever
emitted anywhere in the serialized form. -/
theorem c5_serialization_omits_absent :
    ∀ m : SystemMetrics,
      (m.gpu = none → "gpu".data ∉ jsonKeys (metricsToDict m)) ∧
      (m.cpu.temperature_celsius = none →
        "temperature_celsius".data ∉ (dumpCpu m.cpu).map (fun kv => kv.1)) ∧
      nullFreeF 4 (metricsToDict m) = true := by
  intro m
  refine ⟨?_, ?_, ?_⟩
  · intro hg
    simp only [metricsToDict, jsonKeys, hg, List.append_nil, List.map_cons, List.map_nil]
    decide
  · intro ht
    simp only [dumpCpu, ht, List.append_nil, List.map_cons, List.map_nil]
    decide
  · have hdisks : ∀ j ∈ m.disks.map (fun d => Json.jobj (dumpDisk d)),
        nullFreeF 2 j = true := by
      intro j hj
      obtain ⟨d, _, rfl⟩ := List.mem_map.mp hj
      rfl
    rcases hg : m.gpu with _ | g <;> rcases ht : m.cpu.temperature_celsius with _ | q <;>
      simp only [metricsToDict, nullFreeF, dumpCpu, dumpMemory, dumpGpu, hg, ht, isNullJ,
        List.all_append, List.all_cons, List.all_nil, List.append_nil, Bool.and_eq_true,
        List.all_eq_true, Bool.not_false, and_true, true_and] <;>
      exact fun j hj => hdisks j hj

/-! ## Claim theorems: disk derivation -/

theorem mem_dset {α : Type} (d : List (Str × α)) (k : Str) (v : α) (kv : Str × α)
    (h : kv ∈ dset d k v) : kv = (k, v) ∨ kv ∈ d := by
  induction d with
  | nil => simpa [dset] using h
  | cons a rest ih =>
    by_cases hk : a.1 = k
    · simp only [dset, if_pos hk] at h
      rcases List.mem_cons.mp h with rfl | h2
      · exact Or.inl rfl
      · exact Or.inr (List.mem_cons_of_mem a h2)
    · simp only [dset, if_neg hk] at h
      rcases List.mem_cons.mp h with rfl | h2
      · exact Or.inr (by simp)
      · rcases ih h2 with h3 | h3
        · exact Or.inl h3
        · exact Or.inr (by simp [h3])

theorem dlookup_mem {α : Type} (d : List (Str × α)) (k : Str) (v : α)
    (h : dlookup d k = some v) : (k, v) ∈ d := by
  induction d with
  | nil => simp [dlookup] at h
  | cons a rest ih =>
    by_cases hk : a.1 = k
    · simp only [dlookup, if_pos hk, Option.some.injEq] at h
      exact List.mem_cons.mpr (Or.inl (by cases a; simp_all))
    · simp only [dlookup, if_neg hk] at h
      exact List.mem_cons_of_mem _ (ih h)

theorem buildMps_inv (sizes : List (List (Str × Str) × ℚ)) :
    ∀ kv ∈ buildMps sizes, kv.2.mountpoint = kv.1 ∧ kv.2.avail = none := by
  suffices h : ∀ (init : List (Str × MpEntry)),
      (∀ kv ∈ init, kv.2.mountpoint = kv.1 ∧ kv.2.avail = none) →
      ∀ kv ∈ sizes.foldl sizeStep init, kv.2.mountpoint = kv.1 ∧ kv.2.avail = none by
    exact h [] (by simp)
  induction sizes with
  | nil =>
    intro init hinit kv hkv
    exact hinit kv hkv
  | cons s rest ih =>
    intro init hinit kv hkv
    rw [List.foldl_cons] at hkv
    refine ih (sizeStep init s) ?_ kv hkv
    intro kv2 hkv2
    simp only [sizeStep] at hkv2
    split at hkv2
    · exact hinit kv2 hkv2
    · split at hkv2
      · rcases mem_dset _ _ _ _ hkv2 with rfl | h2
        · exact ⟨rfl, rfl⟩
        · exact hinit kv2 h2
      · exact hinit kv2 hkv2

theorem applyAvail_mem_of_no_match (avails : List (List (Str × Str) × ℚ)) :
    ∀ (mps : List (Str × MpEntry)) (kv : Str × MpEntry),
      kv ∈ applyAvail mps avails →
      (∀ a ∈ avails, (dlookup a.1 mountpointKey).getD [] ≠ kv.1) →
      kv ∈ mps := by
  induction avails with
  | nil =>
    intro mps kv h _
    exact h
  | cons a rest ih =>
    intro mps kv h hmatch
    rw [applyAvail, List.foldl_cons] at h
    have h2 : kv ∈ availStep mps a :=
      ih (availStep mps a) kv h (fun x hx => hmatch x (by simp [hx]))
    simp only [availStep] at h2
    split at h2
    · rcases mem_dset _ _ _ _ h2 with rfl | h3
      · exact absurd rfl (hmatch a (by simp))
      · exact h3
    · exact h2

theorem applyAvail_key_inv (avails : List (List (Str × Str) × ℚ)) :
    ∀ mps : List (Str × MpEntry),
      (∀ kv ∈ mps, kv.2.mountpoint = kv.1) →
      ∀ kv ∈ applyAvail mps avails, kv.2.mountpoint = kv.1 := by
  induction avails with
  | nil =>
    intro mps hinv kv h
    exact hinv kv h
  | cons a rest ih =>
    intro mps hinv kv h
    rw [applyAvail, List.foldl_cons] at h
    refine ih (availStep mps a) ?_ kv h
    intro kv2 hkv2
    simp only [availStep] at hkv2
    split at hkv2
    · rename_i e he
      rcases mem_dset _ _ _ _ hkv2 with rfl | h3
      · exact hinv (_, e) (dlookup_mem _ _ _ he)
      · exact hinv kv2 h3
    · exact hinv kv2 hkv2

theorem mem_insertDisk (x y : DiskOut) (l : List DiskOut) :
    y ∈ insertDisk x l ↔ y = x ∨ y ∈ l := by
  induction l with
  | nil => simp [insertDisk]
  | cons z r ih =>
    rw [insertDisk]
    by_cases hxz : diskLe x z = true
    · rw [if_pos hxz]
      simp only [List.mem_cons]
    · rw [if_neg hxz]
      simp only [List.mem_cons, ih]
      tauto

theorem mem_sortDisks (l : List DiskOut) (y : DiskOut) :
    y ∈ sortDisks l ↔ y ∈ l := by
  induction l with
  | nil => simp [sortDisks]
  | cons z r ih =>
    show y ∈ insertDisk z (sortDisks r) ↔ _
    rw [mem_insertDisk, ih]
    simp [eq_comm]

theorem leStr_cons_cons (x y : Char) (as bs : Str) :
    leStr (x :: as) (y :: bs) =
      if x < y then true else if x = y then leStr as bs else false := rfl

theorem leStr_total : ∀ a b : Str, leStr a b = true ∨ leStr b a = true := by
  intro a
  induction a with
  | nil => intro b; left; rfl
  | cons x as ih =>
    intro b
    cases b with
    | nil => right; rfl
    | cons y bs =>
      rcases lt_trichotomy x y with h | h | h
      · left
        rw [leStr_cons_cons, if_pos h]
      · subst h
        rcases ih bs with h2 | h2
        · left
          rw [leStr_cons_cons, if_neg (lt_irrefl x), if_pos rfl]
          exact h2
        · right
          rw [leStr_cons_cons, if_neg (lt_irrefl x), if_pos rfl]
          exact h2
      · right
        rw [leStr_cons_cons, if_pos h]

theorem leStr_trans : ∀ a b c : Str, leStr a b = true → leStr b c = true →
    leStr a c = true := by
  intro a
  induction a with
  | nil => intro b c _ _; rfl
  | cons x as ih =>
    intro b c hab hbc
    cases b with
    | nil => simp [leStr] at hab
    | cons y bs =>
      cases c with
      | nil => simp [leStr] at hbc
      | cons z cs =>
        rw [leStr_cons_cons] at hab hbc ⊢
        by_cases h1 : x < y
        · by_cases h2 : y < z
          · rw [if_pos (lt_trans h1 h2)]
          · by_cases h3 : y = z
            · subst h3
              rw [if_pos h1]
            · rw [if_neg h2, if_neg h3] at hbc
              exact absurd hbc (by simp)
        · by_cases h3 : x = y
          · subst h3
            rw [if_neg (lt_irrefl x), if_pos rfl] at hab
            by_cases h2 : x < z
            · rw [if_pos h2]
            · by_cases h4 : x = z
              · subst h4
                rw [if_neg (lt_irrefl x), if_pos rfl] at hbc ⊢
                exact ih bs cs hab hbc
              · rw [if_neg h2, if_neg h4] at hbc
                exact absurd hbc (by simp)
          · rw [if_neg h1, if_neg h3] at hab
            exact absurd hab (by simp)

theorem diskLe_total (a b : DiskOut) : diskLe a b = true ∨ diskLe b a = true :=
  leStr_total a.mountpoint b.mountpoint

theorem diskLe_trans (a b c : DiskOut) (h1 : diskLe a b = true)
    (h2 : diskLe b c = true) : diskLe a c = true :=
  leStr_trans a.mountpoint b.mountpoint c.mountpoint h1 h2

theorem insertDisk_sorted (x : DiskOut) (l : List DiskOut)
    (h : l.Pairwise (fun a b => diskLe a b = true)) :
    (insertDisk x l).Pairwise (fun a b => diskLe a b = true) := by
  induction l with
  | nil => simp [insertDisk]
  | cons y r ih =>
    rw [insertDisk]
    rw [List.pairwise_cons] at h
    by_cases hxy : diskLe x y = true
    · rw [if_pos hxy]
      refine List.Pairwise.cons ?_ (List.Pairwise.cons h.1 h.2)
      intro z hz
      rcases List.mem_cons.mp hz with rfl | hz2
      · exact hxy
      · exact diskLe_trans x y z hxy (h.1 z hz2)
    · rw [if_neg hxy]
      refine List.Pairwise.cons ?_ (ih h.2)
      intro z hz
      rcases (mem_insertDisk x z r).mp hz with hzx | hz2
      · subst hzx
        rcases diskLe_total z y with h5 | h5
        · exact absurd h5 hxy
        · exact h5
      · exact h.1 z hz2

theorem sortDisks_sorted (l : List DiskOut) :
    (sortDisks l).Pairwise (fun a b => diskLe a b = true) := by
  induction l with
  | nil => simp [sortDisks]
  | cons z r ih => exact insertDisk_sorted z (sortDisks r) ih

theorem getAllValues_append (n : Str) (p1 p2 : List MetricQ) :
    getAllValues n (p1 ++ p2) = getAllValues n p1 ++ getAllValues n p2 := by
  simp [getAllValues, List.filterMap_append]

/-- Claim C6: a size sample with a pseudo filesystem type or a reserved
mountpoint root contributes no disk entry (removing it leaves the output
unchanged); a retained mountpoint with no matching available sample
reports `available_bytes = 0`; and the returned list is sorted by
mountpoint string. -/
theorem c6_disk_derivation :
    (∀ (p1 p2 : List MetricQ) (s : MetricQ),
      s.name = fsSizeName → skipSizeSample s.labels = true →
      getDiskMetrics (p1 ++ s :: p2) = getDiskMetrics (p1 ++ p2)) ∧
    (∀ (parsed : List MetricQ) (e : DiskOut),
      e ∈ getDiskMetrics parsed →
      (∀ a ∈ getAllValues fsAvailName parsed,
        (dlookup a.1 mountpointKey).getD [] ≠ e.mountpoint) →
      e.available_bytes = 0) ∧
    (∀ parsed : List MetricQ,
      (getDiskMetrics parsed).Pairwise
        (fun a b => leStr a.mountpoint b.mountpoint = true)) := by
  refine ⟨?_, ?_, ?_⟩
  · intro p1 p2 s hname hskip
    have hsize : getAllValues fsSizeName (p1 ++ s :: p2) =
        getAllValues fsSizeName p1 ++
          ((s.labels, s.value) :: getAllValues fsSizeName p2) := by
      simp [getAllValues, List.filterMap_append, List.filterMap_cons, hname]
    have hf : (if s.name = fsAvailName then some (s.labels, s.value) else none) = none := by
      rw [hname]
      exact if_neg (by decide)
    have havail : getAllValues fsAvailName (p1 ++ s :: p2) =
        getAllValues fsAvailName (p1 ++ p2) := by
      simp only [getAllValues, List.filterMap_append, List.filterMap_cons, hf]
    have hbuild : buildMps (getAllValues fsSizeName p1 ++
        ((s.labels, s.value) :: getAllValues fsSizeName p2)) =
        buildMps (getAllValues fsSizeName p1 ++ getAllValues fsSizeName p2) := by
      unfold buildMps
      rw [List.foldl_append, List.foldl_append, List.foldl_cons]
      have hstep : sizeStep (List.foldl sizeStep [] (getAllValues fsSizeName p1))
          (s.labels, s.value) = List.foldl sizeStep [] (getAllValues fsSizeName p1) := by
        simp only [sizeStep]
        rw [if_pos hskip]
      rw [hstep]
    rw [getDiskMetrics, getDiskMetrics, hsize, havail, hbuild,
      getAllValues_append fsSizeName p1 p2]
  · intro parsed e he hnomatch
    rw [getDiskMetrics, mem_sortDisks] at he
    obtain ⟨kv, hkv, rfl⟩ := List.mem_map.mp he
    have hkey : kv.2.mountpoint = kv.1 :=
      applyAvail_key_inv _ _ (fun kv0 h0 => (buildMps_inv _ kv0 h0).1) kv hkv
    have hnm2 : ∀ a ∈ getAllValues fsAvailName parsed,
        (dlookup a.1 mountpointKey).getD [] ≠ kv.1 := by
      intro a ha
      rw [← hkey]
      exact hnomatch a ha
    have hmem0 : kv ∈ buildMps (getAllValues fsSizeName parsed) :=
      applyAvail_mem_of_no_match _ _ _ hkv hnm2
    have havn : kv.2.avail = none := (buildMps_inv _ kv hmem0).2
    show (mkDisk kv.2).available_bytes = 0
    simp [mkDisk, havn]
  · intro parsed
    rw [getDiskMetrics]
    exact (sortDisks_sorted _).imp (fun hab => hab)

/-- Witness for C6 at concrete samples: dropping the tmpfs sample leaves
the output unchanged; the `/b` mount (size but no available sample)
reports zero available bytes; the output list is sorted by mountpoint. -/
theorem c6_disk_derivation_witness :
    getDiskMetrics exDiskParsed =
      getDiskMetrics
        ([mkFsSample "node_filesystem_size_bytes" "/" "/dev/sda1" "ext4" 1000] ++
         [mkFsSample "node_filesystem_size_bytes" "/b" "d2" "ext4" 800,
          mkFsSample "node_filesystem_avail_bytes" "/" "/dev/sda1" "ext4" 250]) ∧
    (∃ e ∈ getDiskMetrics exDiskParsed,
      e.mountpoint = "/b".data ∧ e.available_bytes = 0) ∧
    (getDiskMetrics exDiskParsed).Pairwise
      (fun a b => leStr a.mountpoint b.mountpoint = true) := by
  have hval : getDiskMetrics exDiskParsed =
      [⟨"/".data, "/dev/sda1".data, 1000, 250, 75⟩,
       ⟨"/b".data, "d2".data, 800, 0, 100⟩] := by
    simp +decide only [getDiskMetrics, getAllValues, exDiskParsed, mkFsSample, buildMps,
      applyAvail, sizeStep, availStep, skipSizeSample, pseudoFsTypes, reservedMp,
      mountpointKey, deviceKey, fstypeKey, fsSizeName, fsAvailName, dset, dlookup,
      mkDisk, sortDisks, insertDisk, diskLe, leStr, pyTrunc, pyRoundQ, pyRoundInt,
      List.filterMap, List.foldl, List.foldr, List.map]
    norm_num
  refine ⟨?_, ?_, ?_⟩
  · have hsplit : exDiskParsed =
        [mkFsSample "node_filesystem_size_bytes" "/" "/dev/sda1" "ext4" 1000] ++
          mkFsSample "node_filesystem_size_bytes" "/tmp" "tmpfs" "tmpfs" 500 ::
          [mkFsSample "node_filesystem_size_bytes" "/b" "d2" "ext4" 800,
           mkFsSample "node_filesystem_avail_bytes" "/" "/dev/sda1" "ext4" 250] := rfl
    rw [hsplit]
    exact c6_disk_derivation.1 _ _ _ (by decide) (by decide)
  · refine ⟨⟨"/b".data, "d2".data, 800, 0, 100⟩, by rw [hval]; simp, rfl, ?_⟩
    exact c6_disk_derivation.2.1 exDiskParsed _ (by rw [hval]; simp) (by decide)
  · exact c6_disk_derivation.2.2 exDiskParsed

/-! ## Claim theorems: daemon lifecycle -/

theorem isDigit_ne_nl (c : Char) (h : c.isDigit = true) : isSpaceChar c = false :=
  not_space_of_digit c h

/-- Witness for C5 at a concrete snapshot with GPU and CPU temperature
absent: neither key is emitted and no null appears. -/
theorem c5_serialization_omits_absent_witness :
    "gpu".data ∉ jsonKeys (metricsToDict exSnap) ∧
    "temperature_celsius".data ∉ (dumpCpu exSnap.cpu).map (fun kv => kv.1) ∧
    nullFreeF 4 (metricsToDict exSnap) = true := by
  have h := c5_serialization_omits_absent exSnap
  exact ⟨h.1 rfl, h.2.1 rfl, h.2.2⟩
